import Mathlib

/-!
Verification of the extension and value-packaging core of the deno runtime
(src/core/extensions.rs and src/core/minvalue.rs), as a shallow embedding.

Rust mutation through `&mut self` is modelled by state passing: a method that
mutates its receiver returns the updated receiver alongside its result; a
method that takes `&self` returns the receiver unchanged.  A Rust `panic!`
(a fatal, non-recoverable abort) is modelled as `Except.error` carrying the
panic message, while recoverable `Result` values keep their own `Except`.
-/

namespace DenoCore

/-- Opaque model of a boxed native op function (`Box<OpFn>` in the source);
the extension core only stores and moves these, never calls them, so a tagged
carrier is a faithful model. -/
structure OpFn where
  id : Nat
deriving DecidableEq, Repr

/-- Opaque model of the host-owned mutable state container (`OpState`); the
extension core never inspects its contents, it only hands it to the
registered state initializer. -/
structure OpState where
  data : Nat
deriving DecidableEq, Repr

/-- Model of `AnyError`: an opaque error value. -/
structure AnyError where
  msg : String
deriving DecidableEq, Repr

/-- `pub type SourcePair = (&'static str, &'static str);` (extensions.rs:4) -/
abbrev SourcePair := String × String

/-- `pub type OpPair = (&'static str, Box<OpFn>);` (extensions.rs:5) -/
abbrev OpPair := String × OpFn

/-- `pub type OpMiddlewareFn = dyn Fn(&'static str, Box<OpFn>) -> Box<OpFn>;`
(extensions.rs:6) -/
def OpMiddlewareFn := String → OpFn → OpFn

/-- `pub type OpStateFn = dyn Fn(&mut OpState) -> Result<(), AnyError>;`
(extensions.rs:7).  The `&mut` receiver is modelled by returning the updated
state next to the `Result`. -/
def OpStateFn := OpState → Except AnyError Unit × OpState

/-- `struct Extension` (extensions.rs:9-16). -/
structure Extension where
  js_files : Option (List SourcePair)
  ops : Option (List OpPair)
  opstate_fn : Option OpStateFn
  middleware_fn : Option OpMiddlewareFn
  initialized : Bool

/-- `#[derive(Default)]` on `Extension` (extensions.rs:9): all fields `None`,
flag `false`. -/
def Extension.mkDefault : Extension :=
  { js_files := none, ops := none, opstate_fn := none, middleware_fn := none,
    initialized := false }

/-- `Extension::init_js` (extensions.rs:27-32): takes `&self`, clones the
declared source list or returns the empty list. -/
def Extension.init_js (self : Extension) : List SourcePair × Extension :=
  (match self.js_files with
   | some files => files
   | none => [], self)

/-- `Extension::init_ops` (extensions.rs:35-43): takes `&mut self`; a second
call hits `panic!("init_ops called twice: not idempotent or correct")`,
modelled as `Except.error`; otherwise sets the flag and `take`s the op table. -/
def Extension.init_ops (self : Extension) :
    Except String (Option (List OpPair) × Extension) :=
  if self.initialized then
    Except.error "init_ops called twice: not idempotent or correct"
  else
    Except.ok (self.ops, { self with initialized := true, ops := none })

/-- `Extension::init_state` (extensions.rs:46-51): takes `&self` (receiver
unchanged), invokes the registered initializer on the given state container
or trivially succeeds. -/
def Extension.init_state (self : Extension) (state : OpState) :
    (Except AnyError Unit × OpState) × Extension :=
  (match self.opstate_fn with
   | some ofn => ofn state
   | none => (Except.ok (), state), self)

/-- `Extension::init_middleware` (extensions.rs:54-56): takes `&mut self`,
`take`s the middleware callback. -/
def Extension.init_middleware (self : Extension) :
    Option OpMiddlewareFn × Extension :=
  (self.middleware_fn, { self with middleware_fn := none })

/-- `struct ExtensionBuilder` (extensions.rs:60-66). -/
structure ExtensionBuilder where
  js : List SourcePair
  ops : List OpPair
  state : Option OpStateFn
  middleware : Option OpMiddlewareFn

/-- `#[derive(Default)]` on `ExtensionBuilder` (extensions.rs:60). -/
def ExtensionBuilder.mkDefault : ExtensionBuilder :=
  { js := [], ops := [], state := none, middleware := none }

/-- `ExtensionBuilder::js` (extensions.rs:69-72); named `addJs` here because
the Lean structure already uses `js` for the field of the same name. -/
def ExtensionBuilder.addJs (self : ExtensionBuilder)
    (js_files : List SourcePair) : ExtensionBuilder :=
  { self with js := self.js ++ js_files }

/-- `ExtensionBuilder::ops` (extensions.rs:74-77); named `addOps` here because
the Lean structure already uses `ops` for the field of the same name. -/
def ExtensionBuilder.addOps (self : ExtensionBuilder)
    (new_ops : List OpPair) : ExtensionBuilder :=
  { self with ops := self.ops ++ new_ops }

/-- `ExtensionBuilder::state` (extensions.rs:79-85); named `setState` here
because the Lean structure already uses `state` for the field. -/
def ExtensionBuilder.setState (self : ExtensionBuilder)
    (opstate_fn : OpStateFn) : ExtensionBuilder :=
  { self with state := some opstate_fn }

/-- `ExtensionBuilder::middleware` (extensions.rs:87-93); named
`setMiddleware` here because the Lean structure already uses `middleware`
for the field. -/
def ExtensionBuilder.setMiddleware (self : ExtensionBuilder)
    (middleware_fn : OpMiddlewareFn) : ExtensionBuilder :=
  { self with middleware := some middleware_fn }

/-- `ExtensionBuilder::build` (extensions.rs:95-105): `mem::take`s the two
lists and `take`s the two callback slots into a fresh Extension with
`initialized = false`, leaving the builder reset. -/
def ExtensionBuilder.build (self : ExtensionBuilder) :
    Extension × ExtensionBuilder :=
  ({ js_files := some self.js, ops := some self.ops,
     opstate_fn := self.state, middleware_fn := self.middleware,
     initialized := false },
   { js := [], ops := [], state := none, middleware := none })

/-! Naming validator (`op_ident`, extensions.rs:174-188).  Rust `&str` text
is modelled as `List Char`; all inputs of interest are ASCII, where Rust's
byte indices and these character indices agree. -/

/-- Model of Rust `str::rfind` for a substring pattern: the index of the
last position at which `pat` occurs in `s` (`none` if it never occurs). -/
def rfindSub (s pat : List Char) : Option Nat :=
  match s with
  | [] => if pat.isPrefixOf ([] : List Char) then some 0 else none
  | c :: s' =>
    match rfindSub s' pat with
    | some i => some (i + 1)
    | none => if pat.isPrefixOf (c :: s') then some 0 else none

/-- The literal `"::"` (extensions.rs:177). -/
def pathSep : List Char := [':', ':']

/-- The literal `"::<"` (extensions.rs:175). -/
def genericMark : List Char := [':', ':', '<']

/-- The literal `"op_"` (extensions.rs:182). -/
def opPrefixMark : List Char := ['o', 'p', '_']

/-- Lines 175-178 of `op_ident` (extensions.rs): truncate before the last
`"::<"` (if any), then take everything after the last `"::"` (or the whole
string when there is none).  Split out of `op_ident` so the rejected
candidate can be named; `op_ident` below is exactly the source's
assert-and-return on this value. -/
def op_ident_candidate (ident_path : List Char) : List Char :=
  let e := (rfindSub ident_path genericMark).getD ident_path.length
  let trimmed := ident_path.take e
  let start :=
    match rfindSub trimmed pathSep with
    | some i => i + 2
    | none => 0
  trimmed.drop start

/-- `op_ident` (extensions.rs:174-188).  The `assert!` failure (a fatal
abort with message `Op '{name}' missing 'op_' prefix`) is modelled as
`Except.error` carrying that message. -/
def op_ident (ident_path : List Char) : Except (List Char) (List Char) :=
  let name := op_ident_candidate ident_path
  if opPrefixMark.isPrefixOf name then Except.ok name
  else Except.error ("Op '".data ++ name ++ "' missing 'op_' prefix".data)

/-! Value-packaging layer (minvalue.rs).  `f32`/`f64` values are only moved
by this code, never computed with, so they are modelled as opaque carriers
of their bit pattern; likewise the fixed-width integers are carried as
`Int`/`Nat` since no arithmetic (hence no overflow) occurs here. -/

/-- Opaque carrier for an `f32` value (its bit pattern); the packaging layer
only moves such values. -/
structure F32 where
  bits : Nat
deriving DecidableEq, Repr

/-- Opaque carrier for an `f64` value (its bit pattern). -/
structure F64 where
  bits : Nat
deriving DecidableEq, Repr

/-- `enum MinValue` (minvalue.rs:25-38): the closed, copyable union of the
twelve supported primitives. -/
inductive MinValue where
  | Unit (x : Unit)
  | Bool (x : Bool)
  | Int8 (x : Int)
  | Int16 (x : Int)
  | Int32 (x : Int)
  | Int64 (x : Int)
  | UInt8 (x : Nat)
  | UInt16 (x : Nat)
  | UInt32 (x : Nat)
  | UInt64 (x : Nat)
  | Float32 (x : F32)
  | Float64 (x : F64)

/-- The slice of serde's `Serializer` interface that `MinValue`'s
`Serialize` impl uses (minvalue.rs:40-60): one encoding method per
primitive case, each returning the serializer's output or its error. -/
structure Serializer (Ok Err : Type) where
  serialize_unit : Except Err Ok
  serialize_bool : Bool → Except Err Ok
  serialize_i8 : Int → Except Err Ok
  serialize_i16 : Int → Except Err Ok
  serialize_i32 : Int → Except Err Ok
  serialize_i64 : Int → Except Err Ok
  serialize_u8 : Nat → Except Err Ok
  serialize_u16 : Nat → Except Err Ok
  serialize_u32 : Nat → Except Err Ok
  serialize_u64 : Nat → Except Err Ok
  serialize_f32 : F32 → Except Err Ok
  serialize_f64 : F64 → Except Err Ok

/-- `impl serde::Serialize for MinValue` (minvalue.rs:40-60): dispatch each
case to the corresponding serializer method. -/
def MinValue.serialize {Ok Err : Type} (self : MinValue)
    (serializer : Serializer Ok Err) : Except Err Ok :=
  match self with
  | .Unit _ => serializer.serialize_unit
  | .Bool x => serializer.serialize_bool x
  | .Int8 x => serializer.serialize_i8 x
  | .Int16 x => serializer.serialize_i16 x
  | .Int32 x => serializer.serialize_i32 x
  | .Int64 x => serializer.serialize_i64 x
  | .UInt8 x => serializer.serialize_u8 x
  | .UInt16 x => serializer.serialize_u16 x
  | .UInt32 x => serializer.serialize_u32 x
  | .UInt64 x => serializer.serialize_u64 x
  | .Float32 x => serializer.serialize_f32 x
  | .Float64 x => serializer.serialize_f64 x

/-- Modelled from the spec: the engine-value type of the scripting engine
(`v8::Value`), which lives outside src/.  Only the shapes produced by the
primitive encodings are distinguished. -/
inductive V8Value where
  | v8Null
  | v8Boolean (b : Bool)
  | v8Integer (i : Int)
  | v8UInteger (n : Nat)
  | v8Float32 (x : F32)
  | v8Float64 (x : F64)

/-- Modelled from the spec: the engine conversion error type
(`serde_v8::Error`), opaque at this layer. -/
structure SerdeV8Error where
  msg : String

/-- Modelled from the spec: the `serde_v8` serializer backing
`serde_v8::to_v8`, which lives outside src/.  Per the spec, `Scalar`
conversion "is defined never to fail, since numeric/boolean/unit encodings
are always representable": every primitive encoding method succeeds
(boolean to engine boolean, fixed-width integer to engine numeric, float to
engine floating value, unit to the engine null/undefined value). -/
def serdeV8Serializer : Serializer V8Value SerdeV8Error where
  serialize_unit := Except.ok V8Value.v8Null
  serialize_bool x := Except.ok (V8Value.v8Boolean x)
  serialize_i8 x := Except.ok (V8Value.v8Integer x)
  serialize_i16 x := Except.ok (V8Value.v8Integer x)
  serialize_i32 x := Except.ok (V8Value.v8Integer x)
  serialize_i64 x := Except.ok (V8Value.v8Integer x)
  serialize_u8 x := Except.ok (V8Value.v8UInteger x)
  serialize_u16 x := Except.ok (V8Value.v8UInteger x)
  serialize_u32 x := Except.ok (V8Value.v8UInteger x)
  serialize_u64 x := Except.ok (V8Value.v8UInteger x)
  serialize_f32 x := Except.ok (V8Value.v8Float32 x)
  serialize_f64 x := Except.ok (V8Value.v8Float64 x)

/-- Modelled from the spec: `serde_v8::to_v8(scope, x)` for a `MinValue`
(called at minvalue.rs:16), i.e. serializing `x` with the engine
serializer.  The handle scope is engine-internal state with no bearing on
the result value and is omitted. -/
def serde_v8_to_v8 (x : MinValue) : Except SerdeV8Error V8Value :=
  x.serialize serdeV8Serializer

/-- Model of `Box<dyn serde_v8::Serializable>` (minvalue.rs:6): a
type-erased owned value whose only capability is its own engine-value
conversion, which may fail. -/
structure Serializable where
  to_v8 : Except SerdeV8Error V8Value

/-- `enum SerializablePkg` (minvalue.rs:4-7). -/
inductive SerializablePkg where
  | MinValue (x : MinValue)
  | Serializable (x : Serializable)

/-- `SerializablePkg::to_v8` (minvalue.rs:9-20): the `MinValue` case goes
through `serde_v8::to_v8`, the `Serializable` case delegates to the boxed
value's own conversion. -/
def SerializablePkg.to_v8 (self : SerializablePkg) :
    Except SerdeV8Error V8Value :=
  match self with
  | .MinValue x => serde_v8_to_v8 x
  | .Serializable x => x.to_v8

/-- The static type of the argument at a `to_pkg` call site
(minvalue.rs:67-69), together with the value of that type.  The autoref
specialization (minvalue.rs:71-104) resolves purely on this static type:
each of the twelve primitive types has a `ViaPrimitive` impl
(`impl_via_primitive!`, minvalue.rs:74-97) that takes strict precedence,
and every other `Serialize + Default` type falls through to the
`ViaSerializable` impl (minvalue.rs:99-104), whose boxed value is here
already type-erased to its conversion capability. -/
inductive PkgInput where
  | unit (x : Unit)
  | bool (x : Bool)
  | i8 (x : Int)
  | i16 (x : Int)
  | i32 (x : Int)
  | i64 (x : Int)
  | u8 (x : Nat)
  | u16 (x : Nat)
  | u32 (x : Nat)
  | u64 (x : Nat)
  | f32 (x : F32)
  | f64 (x : F64)
  | other (x : Serializable)

/-- `to_pkg` (minvalue.rs:67-69) after specialization resolution: a
primitive moves into the corresponding `MinValue` case (the `RefCell::take`
of `impl_via_primitive!`, minvalue.rs:78), anything else is boxed into the
`Serializable` variant (minvalue.rs:102). -/
def to_pkg (x : PkgInput) : SerializablePkg :=
  match x with
  | .unit x => SerializablePkg.MinValue (MinValue.Unit x)
  | .bool x => SerializablePkg.MinValue (MinValue.Bool x)
  | .i8 x => SerializablePkg.MinValue (MinValue.Int8 x)
  | .i16 x => SerializablePkg.MinValue (MinValue.Int16 x)
  | .i32 x => SerializablePkg.MinValue (MinValue.Int32 x)
  | .i64 x => SerializablePkg.MinValue (MinValue.Int64 x)
  | .u8 x => SerializablePkg.MinValue (MinValue.UInt8 x)
  | .u16 x => SerializablePkg.MinValue (MinValue.UInt16 x)
  | .u32 x => SerializablePkg.MinValue (MinValue.UInt32 x)
  | .u64 x => SerializablePkg.MinValue (MinValue.UInt64 x)
  | .f32 x => SerializablePkg.MinValue (MinValue.Float32 x)
  | .f64 x => SerializablePkg.MinValue (MinValue.Float64 x)
  | .other x => SerializablePkg.Serializable x

/-! Concrete sample data used by witness theorems. -/

/-- Sample op table with a single op. -/
def sampleOps : List OpPair := [("op_sample", ⟨1⟩)]

/-- Sample bootstrap sources, two files in order. -/
def sampleJs : List SourcePair :=
  [("deno:ext/a.js", "a-src"), ("deno:ext/b.js", "b-src")]

/-- Sample state initializer: bumps the counter in the state container. -/
def sampleStateFn : OpStateFn := fun s => (Except.ok (), ⟨s.data + 1⟩)

/-- Sample middleware: tags every callable it wraps. -/
def sampleMw : OpMiddlewareFn := fun _ f => ⟨f.id + 100⟩

/-- A fully-populated Extension as `build()` would produce it. -/
def sampleExt : Extension :=
  { js_files := some sampleJs, ops := some sampleOps,
    opstate_fn := some sampleStateFn, middleware_fn := some sampleMw,
    initialized := false }

/-- `sampleExt` after its op table has been consumed by `init_ops`. -/
def sampleExtConsumed : Extension :=
  { sampleExt with initialized := true, ops := none }

/-- C1: for every Extension, the first call to `init_ops` (flag still
`false`) consumes and returns the op table — whatever it is, present or not
— and flips the flag; any call on an instance whose flag is set, hence any
call after the first, hits the fatal `panic!` (modelled as `Except.error`
with the source's message), not a recoverable result. -/
theorem init_ops_one_shot (e : Extension) :
    (e.initialized = false →
      e.init_ops =
        Except.ok (e.ops, { e with initialized := true, ops := none })) ∧
    (e.initialized = true →
      e.init_ops =
        Except.error "init_ops called twice: not idempotent or correct") ∧
    (∀ r e', e.init_ops = Except.ok (r, e') →
      e'.init_ops =
        Except.error "init_ops called twice: not idempotent or correct") := by
  refine ⟨fun h => ?_, fun h => ?_, fun r e' h => ?_⟩
  · simp [Extension.init_ops, h]
  · simp [Extension.init_ops, h]
  · by_cases hi : e.initialized = true
    · simp [Extension.init_ops, hi] at h
    · simp [Extension.init_ops, hi] at h
      simp [Extension.init_ops, ← h.2]

/-- Witness for C1 at a concrete extension: the first call returns the
declared table, the second call aborts. -/
theorem init_ops_one_shot_witness :
    sampleExt.init_ops = Except.ok (some sampleOps, sampleExtConsumed) ∧
    sampleExtConsumed.init_ops =
      Except.error "init_ops called twice: not idempotent or correct" :=
  ⟨(init_ops_one_shot sampleExt).1 rfl,
   (init_ops_one_shot sampleExtConsumed).2.1 rfl⟩

/-- C6: `init_js` is side-effect-free (the receiver comes back unchanged),
every repeated call returns an equal list, the list is empty when no
sources were declared and is exactly the declared list otherwise. -/
theorem init_js_stable (e : Extension) :
    (e.init_js).2 = e ∧
    ((e.init_js).2.init_js).1 = (e.init_js).1 ∧
    (e.js_files = none → (e.init_js).1 = []) ∧
    (∀ files, e.js_files = some files → (e.init_js).1 = files) := by
  refine ⟨rfl, rfl, fun h => ?_, fun files h => ?_⟩
  · simp [Extension.init_js, h]
  · simp [Extension.init_js, h]

/-- Witness for C6: the declared sources come back in order, and an
extension with no declared sources yields the empty list. -/
theorem init_js_stable_witness :
    (sampleExt.init_js).1 = sampleJs ∧
    (Extension.mkDefault.init_js).1 = [] :=
  ⟨(init_js_stable sampleExt).2.2.2 sampleJs rfl,
   (init_js_stable Extension.mkDefault).2.2.1 rfl⟩

/-- C7: `build()` drains the accumulated state into a fresh Extension with
`initialized = false` and resets the builder to the default empty state, so
a second `build()` with no intervening accumulation yields an Extension
whose op and source lists are both present-but-empty. -/
theorem build_resets (b : ExtensionBuilder) :
    (b.build).1 =
      { js_files := some b.js, ops := some b.ops, opstate_fn := b.state,
        middleware_fn := b.middleware, initialized := false } ∧
    (b.build).2 = ExtensionBuilder.mkDefault ∧
    ((b.build).2.build).1.js_files = some [] ∧
    ((b.build).2.build).1.ops = some [] ∧
    ((b.build).2.build).1.initialized = false :=
  ⟨rfl, rfl, rfl, rfl, rfl⟩

/-- C8: `init_middleware` returns and clears the middleware slot: the first
call returns the callback when one was set, a call with no callback (in
particular any repeated call) returns `none` — it is a total function, not
a failure, unlike `init_ops`. -/
theorem init_middleware_optional (e : Extension) :
    (∀ f, e.middleware_fn = some f → (e.init_middleware).1 = some f) ∧
    (e.middleware_fn = none → (e.init_middleware).1 = none) ∧
    ((e.init_middleware).2).middleware_fn = none ∧
    (((e.init_middleware).2).init_middleware).1 = none := by
  refine ⟨fun f h => ?_, fun h => ?_, rfl, rfl⟩
  · simp [Extension.init_middleware, h]
  · simp [Extension.init_middleware, h]

/-- Witness for C8: the set middleware comes out once; an extension without
middleware yields `none`. -/
theorem init_middleware_optional_witness :
    (sampleExt.init_middleware).1 = some sampleMw ∧
    (Extension.mkDefault.init_middleware).1 = none :=
  ⟨(init_middleware_optional sampleExt).1 sampleMw rfl,
   (init_middleware_optional Extension.mkDefault).2.1 rfl⟩

/-- C9: `init_state` invokes the registered initializer on the given state
container and returns exactly its result; with no initializer it returns
`Ok(())` and the untouched container; the Extension itself is never
changed, so the call can be repeated. -/
theorem init_state_delegates (e : Extension) (s : OpState) :
    (∀ f, e.opstate_fn = some f → e.init_state s = (f s, e)) ∧
    (e.opstate_fn = none → e.init_state s = ((Except.ok (), s), e)) ∧
    (e.init_state s).2 = e := by
  refine ⟨fun f h => ?_, fun h => ?_, rfl⟩
  · simp [Extension.init_state, h]
  · simp [Extension.init_state, h]

/-- Witness for C9: the sample initializer's result (error-free bump of the
counter) is propagated verbatim; a default extension leaves the container
alone. -/
theorem init_state_delegates_witness :
    sampleExt.init_state ⟨0⟩ = (sampleStateFn ⟨0⟩, sampleExt) ∧
    Extension.mkDefault.init_state ⟨5⟩ =
      ((Except.ok (), ⟨5⟩), Extension.mkDefault) :=
  ⟨(init_state_delegates sampleExt ⟨0⟩).1 sampleStateFn rfl,
   (init_state_delegates Extension.mkDefault ⟨5⟩).2.1 rfl⟩

/-- C10: `build()` also clears the state and middleware slots, so after one
`build()` a second `build()` with no intervening calls yields an Extension
whose `init_middleware` returns `none`, whose `init_state` succeeds without
invoking the earlier initializer (the container comes back untouched),
whose flag is `false`, and whose own first `init_ops` therefore returns its
(empty) table instead of aborting. -/
theorem build_clears_callbacks (b : ExtensionBuilder) :
    (b.build).2.state = none ∧
    (b.build).2.middleware = none ∧
    (((b.build).2.build).1.init_middleware).1 = none ∧
    (∀ s, ((b.build).2.build).1.init_state s =
      ((Except.ok (), s), ((b.build).2.build).1)) ∧
    ((b.build).2.build).1.initialized = false ∧
    ((b.build).2.build).1.init_ops =
      Except.ok (some [],
        { ((b.build).2.build).1 with initialized := true, ops := none }) :=
  ⟨rfl, rfl, rfl, fun _ => rfl, rfl, rfl⟩

/-- C2: `to_pkg` selection is purely by the static type at the call site:
each of the twelve fixed primitives moves into the `MinValue` (Scalar)
variant under its corresponding case with the exact value, and every other
serializable + default-constructible type falls through to the
`Serializable` (Boxed) variant holding that value; the per-type equations
leave no overlap, i.e. the primitive impls take strict precedence over the
generic fallback. -/
theorem to_pkg_dispatch :
    (∀ x, to_pkg (PkgInput.unit x) =
      SerializablePkg.MinValue (MinValue.Unit x)) ∧
    (∀ x, to_pkg (PkgInput.bool x) =
      SerializablePkg.MinValue (MinValue.Bool x)) ∧
    (∀ x, to_pkg (PkgInput.i8 x) =
      SerializablePkg.MinValue (MinValue.Int8 x)) ∧
    (∀ x, to_pkg (PkgInput.i16 x) =
      SerializablePkg.MinValue (MinValue.Int16 x)) ∧
    (∀ x, to_pkg (PkgInput.i32 x) =
      SerializablePkg.MinValue (MinValue.Int32 x)) ∧
    (∀ x, to_pkg (PkgInput.i64 x) =
      SerializablePkg.MinValue (MinValue.Int64 x)) ∧
    (∀ x, to_pkg (PkgInput.u8 x) =
      SerializablePkg.MinValue (MinValue.UInt8 x)) ∧
    (∀ x, to_pkg (PkgInput.u16 x) =
      SerializablePkg.MinValue (MinValue.UInt16 x)) ∧
    (∀ x, to_pkg (PkgInput.u32 x) =
      SerializablePkg.MinValue (MinValue.UInt32 x)) ∧
    (∀ x, to_pkg (PkgInput.u64 x) =
      SerializablePkg.MinValue (MinValue.UInt64 x)) ∧
    (∀ x, to_pkg (PkgInput.f32 x) =
      SerializablePkg.MinValue (MinValue.Float32 x)) ∧
    (∀ x, to_pkg (PkgInput.f64 x) =
      SerializablePkg.MinValue (MinValue.Float64 x)) ∧
    (∀ x, to_pkg (PkgInput.other x) = SerializablePkg.Serializable x) :=
  ⟨fun _ => rfl, fun _ => rfl, fun _ => rfl, fun _ => rfl, fun _ => rfl,
   fun _ => rfl, fun _ => rfl, fun _ => rfl, fun _ => rfl, fun _ => rfl,
   fun _ => rfl, fun _ => rfl, fun _ => rfl⟩

/-- C3: converting a Scalar (`MinValue`) package to an engine value never
fails — `to_v8` on `SerializablePkg::MinValue` returns `Ok` for every value
of each of the twelve primitive cases; no error path exists for the scalar
encoding. -/
theorem minvalue_to_v8_infallible (m : MinValue) :
    ∃ v, (SerializablePkg.MinValue m).to_v8 = Except.ok v := by
  cases m <;> exact ⟨_, rfl⟩

/-! Lemmas about `rfindSub`, the substring-`rfind` model, leading to the
naming-validator claims. -/

/-- Boolean-to-Prop bridge for failing prefix tests. -/
theorem isPrefixOf_eq_false {p s : List Char} (h : ¬ p <+: s) :
    p.isPrefixOf s = false :=
  Bool.eq_false_iff.mpr fun hb => h (List.isPrefixOf_iff_prefix.mp hb)

/-- Boolean-to-Prop bridge for succeeding prefix tests. -/
theorem isPrefixOf_eq_true {p s : List Char} (h : p <+: s) :
    p.isPrefixOf s = true :=
  List.isPrefixOf_iff_prefix.mpr h

/-- Unfolding equation of `rfindSub` on a cons cell. -/
theorem rfindSub_cons (c : Char) (s pat : List Char) :
    rfindSub (c :: s) pat =
      match rfindSub s pat with
      | some i => some (i + 1)
      | none => if pat.isPrefixOf (c :: s) then some 0 else none := rfl

/-- A pattern whose first character never occurs in `s` occurs nowhere. -/
theorem rfindSub_none_of_not_mem {c : Char} {s : List Char} (h : c ∉ s)
    (p : List Char) : rfindSub s (c :: p) = none := by
  induction s with
  | nil => rfl
  | cons d s' ih =>
    have hd : c ≠ d := fun he => h (he ▸ List.mem_cons_self d s')
    have hs' : c ∉ s' := fun hm => h (List.mem_cons_of_mem d hm)
    rw [rfindSub_cons, ih hs']
    have hnp : ¬ (c :: p <+: d :: s') := by
      rw [List.cons_prefix_cons]
      rintro ⟨he, -⟩
      exact hd he
    simp [isPrefixOf_eq_false hnp]

/-- Searching past a block `x` free of the pattern's first character just
shifts the result by `x.length`. -/
theorem rfindSub_append {c : Char} {x : List Char} (h : c ∉ x)
    (p t : List Char) :
    rfindSub (x ++ t) (c :: p) =
      (rfindSub t (c :: p)).map (fun i => i + x.length) := by
  induction x with
  | nil =>
    simp only [List.nil_append, List.length_nil]
    cases hr : rfindSub t (c :: p) <;> simp [hr]
  | cons d x' ih =>
    have hd : c ≠ d := fun he => h (he ▸ List.mem_cons_self d x')
    have hx' : c ∉ x' := fun hm => h (List.mem_cons_of_mem d hm)
    rw [List.cons_append, rfindSub_cons, ih hx']
    have hnp : ¬ (c :: p <+: d :: (x' ++ t)) := by
      rw [List.cons_prefix_cons]
      rintro ⟨he, -⟩
      exact hd he
    cases hr : rfindSub t (c :: p) with
    | none => simp [hr, isPrefixOf_eq_false hnp]
    | some i => simp [hr, Nat.add_assoc]

/-- Dropping an initial block plus `n` more elements. -/
theorem drop_append_len (x y : List Char) (n : Nat) :
    (x ++ y).drop (x.length + n) = y.drop n := by
  induction x with
  | nil => simp
  | cons c x' ih =>
    have h : (c :: x').length + n = (x'.length + n) + 1 := by
      simp [List.length_cons]
      omega
    rw [List.cons_append, h, List.drop_succ_cons, ih]

/-- Taking an initial block plus `n` more elements. -/
theorem take_append_len (x y : List Char) (n : Nat) :
    (x ++ y).take (x.length + n) = x ++ y.take n := by
  induction x with
  | nil => simp
  | cons c x' ih =>
    have h : (c :: x').length + n = (x'.length + n) + 1 := by
      simp [List.length_cons]
      omega
    rw [List.cons_append, h, List.take_succ_cons, ih, List.cons_append]

/-- Dropping `n + 2` elements steps over two leading characters. -/
theorem drop_two_cons (c d : Char) (v : List Char) (n : Nat) :
    (c :: d :: v).drop (n + 2) = v.drop n := by
  show (c :: d :: v).drop ((n + 1) + 1) = v.drop n
  rw [List.drop_succ_cons, List.drop_succ_cons]

/-- Dropping exactly two leading characters. -/
theorem drop_two (c d : Char) (v : List Char) : (c :: d :: v).drop 2 = v :=
  rfl

/-- Taking `n + 2` elements keeps two leading characters. -/
theorem take_two_cons (c d : Char) (v : List Char) (n : Nat) :
    (c :: d :: v).take (n + 2) = c :: d :: v.take n := by
  show (c :: d :: v).take ((n + 1) + 1) = c :: d :: v.take n
  rw [List.take_succ_cons, List.take_succ_cons]

/-- In a separator followed by a colon-free segment, the last (and only)
occurrence of `"::"` is at position 0. -/
theorem rfindSub_sep_nm_p2 {nm : List Char} (h : ':' ∉ nm) :
    rfindSub (':' :: ':' :: nm) [':', ':'] = some 0 := by
  have h1 : rfindSub (':' :: nm) [':', ':'] = none := by
    rw [rfindSub_cons, rfindSub_none_of_not_mem h [':']]
    have hnp : ¬ ([':', ':'] <+: ':' :: nm) := by
      rw [List.cons_prefix_cons]
      rintro ⟨-, h2⟩
      exact h (h2.subset (by simp))
    simp [isPrefixOf_eq_false hnp]
  rw [rfindSub_cons, h1]
  have hp : ([':', ':'] : List Char) <+: ':' :: ':' :: nm := by
    simp [List.cons_prefix_cons]
  simp [isPrefixOf_eq_true hp]

/-- A separator followed by a colon-free segment not starting with `'<'`
contains no occurrence of `"::<"`. -/
theorem rfindSub_sep_nm_p3 {nm : List Char} (h : ':' ∉ nm)
    (hlt : ¬ (['<'] <+: nm)) :
    rfindSub (':' :: ':' :: nm) [':', ':', '<'] = none := by
  have h1 : rfindSub (':' :: nm) [':', ':', '<'] = none := by
    rw [rfindSub_cons, rfindSub_none_of_not_mem h [':', '<']]
    have hnp : ¬ ([':', ':', '<'] <+: ':' :: nm) := by
      rw [List.cons_prefix_cons]
      rintro ⟨-, h2⟩
      exact h (h2.subset (by simp))
    simp [isPrefixOf_eq_false hnp]
  rw [rfindSub_cons, h1]
  have hnp : ¬ ([':', ':', '<'] <+: ':' :: ':' :: nm) := by
    rw [List.cons_prefix_cons, List.cons_prefix_cons]
    rintro ⟨-, -, h2⟩
    exact hlt h2
  simp [isPrefixOf_eq_false hnp]

/-- In a `"::<"` marker followed by a suffix free of `"::<"`, the last
occurrence of `"::<"` is at position 0. -/
theorem rfindSub_genz_p3 {g : List Char}
    (hg : rfindSub g [':', ':', '<'] = none) :
    rfindSub (':' :: ':' :: '<' :: g) [':', ':', '<'] = some 0 := by
  have h0 : rfindSub ('<' :: g) [':', ':', '<'] = none := by
    rw [rfindSub_cons, hg]
    have hnp : ¬ ([':', ':', '<'] <+: '<' :: g) := by
      rw [List.cons_prefix_cons]
      rintro ⟨he, -⟩
      exact absurd he (by decide)
    simp [isPrefixOf_eq_false hnp]
  have h1 : rfindSub (':' :: '<' :: g) [':', ':', '<'] = none := by
    rw [rfindSub_cons, h0]
    have hnp : ¬ ([':', ':', '<'] <+: ':' :: '<' :: g) := by
      rw [List.cons_prefix_cons, List.cons_prefix_cons]
      rintro ⟨-, he, -⟩
      exact absurd he (by decide)
    simp [isPrefixOf_eq_false hnp]
  rw [rfindSub_cons, h1]
  have hp : ([':', ':', '<'] : List Char) <+: ':' :: ':' :: '<' :: g := by
    simp [List.cons_prefix_cons]
  simp [isPrefixOf_eq_true hp]

/-- A prefix-free segment cannot start with `'<'` when it starts with the
`op_` marker. -/
theorem not_lt_prefix_of_op_prefix {nm : List Char}
    (hop : opPrefixMark <+: nm) : ¬ (['<'] <+: nm) := by
  intro hl
  obtain ⟨t1, ht1⟩ := hop
  obtain ⟨t2, ht2⟩ := hl
  rw [← ht1] at ht2
  simp [opPrefixMark, List.cons_prefix_cons] at ht2

/-- Plain-path case of the naming validator: on
`a ++ "::" ++ b ++ "::" ++ nm` with identifier-like segments, `op_ident`
returns `nm`. -/
theorem op_ident_plain (a b nm : List Char) (ha : ':' ∉ a) (hb : ':' ∉ b)
    (hb2 : '<' ∉ b) (hnm : ':' ∉ nm) (hop : opPrefixMark <+: nm) :
    op_ident (a ++ (':' :: ':' :: (b ++ (':' :: ':' :: nm)))) =
      Except.ok nm := by
  have hlt : ¬ (['<'] <+: nm) := not_lt_prefix_of_op_prefix hop
  have hu3 : rfindSub (':' :: ':' :: nm) [':', ':', '<'] = none :=
    rfindSub_sep_nm_p3 hnm hlt
  have hv3 : rfindSub (b ++ (':' :: ':' :: nm)) [':', ':', '<'] = none := by
    rw [rfindSub_append hb, hu3]
    rfl
  have h1v : rfindSub (':' :: (b ++ (':' :: ':' :: nm))) [':', ':', '<'] =
      none := by
    rw [rfindSub_cons, hv3]
    have hnp : ¬ ([':', ':', '<'] <+: ':' :: (b ++ (':' :: ':' :: nm))) := by
      rw [List.cons_prefix_cons]
      rintro ⟨-, h2⟩
      cases b with
      | nil =>
        rw [List.nil_append, List.cons_prefix_cons] at h2
        obtain ⟨-, h3⟩ := h2
        rw [List.cons_prefix_cons] at h3
        exact absurd h3.1 (by decide)
      | cons c0 b' =>
        rw [List.cons_append, List.cons_prefix_cons] at h2
        obtain ⟨he, -⟩ := h2
        exact hb (by rw [he]; exact List.mem_cons_self c0 b')
    simp [isPrefixOf_eq_false hnp]
  have hw3 : rfindSub (':' :: ':' :: (b ++ (':' :: ':' :: nm)))
      [':', ':', '<'] = none := by
    rw [rfindSub_cons, h1v]
    have hnp : ¬ ([':', ':', '<'] <+:
        ':' :: ':' :: (b ++ (':' :: ':' :: nm))) := by
      rw [List.cons_prefix_cons, List.cons_prefix_cons]
      rintro ⟨-, -, h2⟩
      cases b with
      | nil =>
        rw [List.nil_append, List.cons_prefix_cons] at h2
        exact absurd h2.1 (by decide)
      | cons c0 b' =>
        rw [List.cons_append, List.cons_prefix_cons] at h2
        obtain ⟨he, -⟩ := h2
        exact hb2 (by rw [he]; exact List.mem_cons_self c0 b')
    simp [isPrefixOf_eq_false hnp]
  have hs3 : rfindSub (a ++ (':' :: ':' :: (b ++ (':' :: ':' :: nm))))
      [':', ':', '<'] = none := by
    rw [rfindSub_append ha, hw3]
    rfl
  have hu2 : rfindSub (':' :: ':' :: nm) [':', ':'] = some 0 :=
    rfindSub_sep_nm_p2 hnm
  have hv2 : rfindSub (b ++ (':' :: ':' :: nm)) [':', ':'] =
      some b.length := by
    rw [rfindSub_append hb, hu2]
    simp
  have h1v2 : rfindSub (':' :: (b ++ (':' :: ':' :: nm))) [':', ':'] =
      some (b.length + 1) := by
    rw [rfindSub_cons, hv2]
  have hw2 : rfindSub (':' :: ':' :: (b ++ (':' :: ':' :: nm))) [':', ':'] =
      some (b.length + 2) := by
    rw [rfindSub_cons, h1v2]
  have hs2 : rfindSub (a ++ (':' :: ':' :: (b ++ (':' :: ':' :: nm))))
      [':', ':'] = some (b.length + 2 + a.length) := by
    rw [rfindSub_append ha, hw2]
    rfl
  have hcand : op_ident_candidate
      (a ++ (':' :: ':' :: (b ++ (':' :: ':' :: nm)))) = nm := by
    simp only [op_ident_candidate, genericMark, pathSep]
    rw [hs3]
    simp only [Option.getD_none]
    rw [List.take_length, hs2]
    show (a ++ (':' :: ':' :: (b ++ (':' :: ':' :: nm)))).drop
      (b.length + 2 + a.length + 2) = nm
    have hidx : b.length + 2 + a.length + 2 = a.length + (b.length + 2 + 2) :=
      by omega
    rw [hidx, drop_append_len, drop_two_cons, drop_append_len, drop_two]
  simp [op_ident, hcand, isPrefixOf_eq_true hop]

/-- Generic-suffix case of the naming validator: on
`a ++ "::" ++ nm ++ "::<" ++ g` where the generic suffix `g` contains no
further `"::<"` occurrence (plain `"::"` separators inside `g` are fine),
`op_ident` strips the suffix and returns `nm`. -/
theorem op_ident_generic (a nm g : List Char) (ha : ':' ∉ a)
    (hnm : ':' ∉ nm) (hop : opPrefixMark <+: nm)
    (hg : rfindSub g [':', ':', '<'] = none) :
    op_ident (a ++ (':' :: ':' :: (nm ++ (':' :: ':' :: '<' :: g)))) =
      Except.ok nm := by
  have hz3 : rfindSub (':' :: ':' :: '<' :: g) [':', ':', '<'] = some 0 :=
    rfindSub_genz_p3 hg
  have hv3 : rfindSub (nm ++ (':' :: ':' :: '<' :: g)) [':', ':', '<'] =
      some nm.length := by
    rw [rfindSub_append hnm, hz3]
    simp
  have h1 : rfindSub (':' :: (nm ++ (':' :: ':' :: '<' :: g)))
      [':', ':', '<'] = some (nm.length + 1) := by
    rw [rfindSub_cons, hv3]
  have h2 : rfindSub (':' :: ':' :: (nm ++ (':' :: ':' :: '<' :: g)))
      [':', ':', '<'] = some (nm.length + 2) := by
    rw [rfindSub_cons, h1]
  have hs3 : rfindSub (a ++ (':' :: ':' :: (nm ++ (':' :: ':' :: '<' :: g))))
      [':', ':', '<'] = some (nm.length + 2 + a.length) := by
    rw [rfindSub_append ha, h2]
    rfl
  have htake : (a ++ (':' :: ':' :: (nm ++ (':' :: ':' :: '<' :: g)))).take
      (nm.length + 2 + a.length) = a ++ (':' :: ':' :: nm) := by
    have hidx : nm.length + 2 + a.length = a.length + (nm.length + 2) := by
      omega
    rw [hidx, take_append_len, take_two_cons, List.take_left]
  have hp2 : rfindSub (a ++ (':' :: ':' :: nm)) [':', ':'] =
      some a.length := by
    rw [rfindSub_append ha, rfindSub_sep_nm_p2 hnm]
    simp
  have hcand : op_ident_candidate
      (a ++ (':' :: ':' :: (nm ++ (':' :: ':' :: '<' :: g)))) = nm := by
    simp only [op_ident_candidate, genericMark, pathSep]
    rw [hs3]
    simp only [Option.getD_some]
    rw [htake, hp2]
    show (a ++ (':' :: ':' :: nm)).drop (a.length + 2) = nm
    rw [drop_append_len, drop_two]
  simp [op_ident, hcand, isPrefixOf_eq_true hop]

/-- Separator-free case of the naming validator: the candidate is the whole
string. -/
theorem op_ident_no_sep (path : List Char) (hpath : ':' ∉ path)
    (hop : opPrefixMark <+: path) : op_ident path = Except.ok path := by
  have h3 : rfindSub path [':', ':', '<'] = none :=
    rfindSub_none_of_not_mem hpath [':', '<']
  have h2 : rfindSub path [':', ':'] = none :=
    rfindSub_none_of_not_mem hpath [':']
  have hcand : op_ident_candidate path = path := by
    simp only [op_ident_candidate, genericMark, pathSep]
    rw [h3]
    simp only [Option.getD_none]
    rw [List.take_length, h2]
    rfl
  simp [op_ident, hcand, isPrefixOf_eq_true hop]

/-- C4 (amended): for symbol paths `a::b::op_name` with identifier-like
segments (no `':'` in any segment, `b` not containing `'<'`), `op_ident`
returns the final segment; for paths with a trailing generic-parameter
suffix `a::op_name::<g`, it strips the suffix before splitting and returns
`op_name` provided the suffix `g` contains no further `"::<"` occurrence
(plain `"::"` path separators inside the suffix are fine); for a path with
no separators the candidate is the whole string.  The original claim's
unrestricted "including when the generic suffix itself contains
path-separator characters" fails when the suffix contains a nested
`"::<"`: see the counterexample theorem. -/
theorem op_ident_extracts :
    (∀ a b nm : List Char, ':' ∉ a → ':' ∉ b → '<' ∉ b → ':' ∉ nm →
      opPrefixMark <+: nm →
      op_ident (a ++ pathSep ++ b ++ pathSep ++ nm) = Except.ok nm) ∧
    (∀ a nm g : List Char, ':' ∉ a → ':' ∉ nm → opPrefixMark <+: nm →
      rfindSub g genericMark = none →
      op_ident (a ++ pathSep ++ nm ++ genericMark ++ g) = Except.ok nm) ∧
    (∀ path : List Char, ':' ∉ path → opPrefixMark <+: path →
      op_ident path = Except.ok path) := by
  refine ⟨fun a b nm ha hb hb2 hnm hop => ?_,
          fun a nm g ha hnm hop hg => ?_,
          fun path hpath hop => op_ident_no_sep path hpath hop⟩
  · have he : a ++ pathSep ++ b ++ pathSep ++ nm =
        a ++ (':' :: ':' :: (b ++ (':' :: ':' :: nm))) := by
      simp [pathSep, List.append_assoc]
    rw [he]
    exact op_ident_plain a b nm ha hb hb2 hnm hop
  · have he : a ++ pathSep ++ nm ++ genericMark ++ g =
        a ++ (':' :: ':' :: (nm ++ (':' :: ':' :: '<' :: g))) := by
      simp [pathSep, genericMark, List.append_assoc]
    rw [he]
    exact op_ident_generic a nm g ha hnm hop
      (by rw [show genericMark = [':', ':', '<'] from rfl] at hg; exact hg)

/-- Counterexample to C4 as stated: `"a::op_name::<b::<c>>"` has the form
`a::op_name` followed by a trailing generic-parameter suffix that contains
path-separator characters (a nested turbofish `b::<c>`), yet `op_ident`
does not return `"op_name"`: `rfind("::<")` locates the inner occurrence,
truncation yields `"a::op_name::<b"`, the split yields candidate `"<b"`,
and the validator aborts. -/
theorem op_ident_nested_generic_counterexample :
    op_ident ("a::op_name::<b::<c>>".data) =
      Except.error ("Op '<b' missing 'op_' prefix".data) ∧
    op_ident ("a::op_name::<b::<c>>".data) ≠
      Except.ok ("op_name".data) := by
  constructor
  · rfl
  · intro h
    rw [show op_ident ("a::op_name::<b::<c>>".data) =
      Except.error ("Op '<b' missing 'op_' prefix".data) from rfl] at h
    exact Except.noConfusion h

/-- Witness for C4 (amended): a plain three-segment path, a generic-suffix
path whose suffix contains plain path separators, and a separator-free
path. -/
theorem op_ident_extracts_witness :
    op_ident ("foo".data ++ pathSep ++ "bar".data ++ pathSep ++
        "op_baz".data) = Except.ok ("op_baz".data) ∧
    op_ident ("a".data ++ pathSep ++ "op_name".data ++ genericMark ++
        "std::vec::Vec>".data) = Except.ok ("op_name".data) ∧
    op_ident ("op_lone".data) = Except.ok ("op_lone".data) :=
  ⟨op_ident_extracts.1 "foo".data "bar".data "op_baz".data (by decide)
      (by decide) (by decide) (by decide) (by decide),
   op_ident_extracts.2.1 "a".data "op_name".data "std::vec::Vec>".data
      (by decide) (by decide) (by decide) (by decide),
   op_ident_extracts.2.2 "op_lone".data (by decide) (by decide)⟩

/-- C5: whenever the candidate (the final segment after suffix stripping
and splitting, extensions.rs:175-178) does not start with `"op_"`, the
validator aborts with the source's message naming the offending
identifier, rather than returning a name. -/
theorem op_ident_rejects (path : List Char)
    (h : opPrefixMark.isPrefixOf (op_ident_candidate path) = false) :
    op_ident path =
      Except.error ("Op '".data ++ op_ident_candidate path ++
        "' missing 'op_' prefix".data) := by
  simp [op_ident, h]

/-- Witness for C5 at a concrete path whose final segment lacks the
prefix. -/
theorem op_ident_rejects_witness :
    op_ident ("a::b::foo".data) =
      Except.error ("Op '".data ++ op_ident_candidate ("a::b::foo".data) ++
        "' missing 'op_' prefix".data) :=
  op_ident_rejects ("a::b::foo".data) (by decide)

end DenoCore
